import Mathlib

/-!
# Verification of the Tiger Memory storage/retrieval core

A shallow embedding, in Lean 4, of the decision storage and retrieval layer of
the Tiger Memory repository:

* `src/database.ts` — `TigerCloudDB` (projects, sessions, decisions, patterns);
  SQL statements are modelled as pure list operations (filter / sort / take)
  over an explicit in-memory store, with `NOW()` passed in as an explicit
  timestamp and fresh row ids passed in explicitly.
* `src/intelligence.ts` — `ArchitecturalIntelligence` (embedding generation,
  the deterministic fallback embedding, cosine similarity, pattern ranking).
  JavaScript numbers are modelled as rationals (`ℚ`), except where the source
  computes a square root or a logarithm, where reals (`ℝ`) are used.
  JavaScript 32-bit integer coercion (`|0`, `<<`) is modelled explicitly via
  `toInt32`; the JavaScript `%` operator (truncated remainder) is `Int.tmod`.
* `src/tools.ts` (the `ToolHandler` file) — `handleRememberDecision`, with the
  external embedding provider call abstracted as an explicit outcome value.

Strings are Lean `String`s; JavaScript `charCodeAt` is modelled as the Unicode
scalar value of each character (identical to UTF-16 code units on the Basic
Multilingual Plane, which covers all inputs of interest here).
-/

/-! ## JavaScript primitives -/

/-- JavaScript `ToInt32`: wrap an integer into the signed 32-bit range.
Implements the `|0` coercion and the implicit coercion of the `<<` operator. -/
def toInt32 (n : Int) : Int := (n + 2 ^ 31) % 2 ^ 32 - 2 ^ 31

/-- JavaScript truthiness of an optional string parameter: `undefined` and the
empty string are falsy, every other string is truthy. -/
def jsTruthyStr : Option String → Bool
  | none => false
  | some s => s ≠ ""

/-- JavaScript `haystack.includes(needle)` on strings: `needle` occurs as a
contiguous substring of `haystack`. -/
def jsIncludes (haystack needle : String) : Bool :=
  decide (needle.data <:+: haystack.data)

/-- JavaScript `toLowerCase()` (character-wise lower-casing; identical to the
source's behaviour on ASCII). -/
def jsToLowerCase (s : String) : String := String.mk (s.data.map Char.toLower)

/-! ## Data model (`src/database.ts` interfaces)

The field `type` of the `Decision` interface is a Lean keyword and is named
`dtype` here; every other field keeps its source name. -/

/-- The `Decision` interface as passed to `saveDecision` (no `id`,
no `created_at`: both are produced by the insert). -/
structure Decision where
  project_id : String
  session_id : String
  decision : String
  reasoning : String
  dtype : String
  alternatives_considered : List String
  files_affected : List String
  confidence : ℚ
  public : Bool
  vector_embedding : Option (List ℚ)
  deriving DecidableEq, Repr

/-- A persisted row of the `decisions` table: a `Decision` plus the
server-assigned `id` and `created_at` (`NOW()` at insert time). -/
structure DecisionRow where
  id : ℕ
  project_id : String
  session_id : String
  decision : String
  reasoning : String
  dtype : String
  alternatives_considered : List String
  files_affected : List String
  confidence : ℚ
  public : Bool
  vector_embedding : Option (List ℚ)
  created_at : ℕ
  deriving DecidableEq, Repr

/-- A row of the `decision_patterns` table (`DecisionPattern` interface).
`usage_count` is an `Int` so that the model can even represent a (hypothetical)
negative count. -/
structure DecisionPattern where
  id : ℕ
  pattern_name : String
  description : String
  tech_stack : List String
  usage_count : Int
  success_rate : ℚ
  deriving DecidableEq, Repr

/-- A row of the `projects` table, including the `repository_id` column added
by migration `003_add_auth_support.sql`. -/
structure Project where
  id : ℕ
  name : String
  path_hash : String
  repository_id : Option String
  git_remote_url : Option String
  tech_stack : List String
  project_type : String
  deriving DecidableEq, Repr

/-- The project descriptor handed to `getOrCreateProject` by
`ensureProjectContext` (the newer server generation): name, path hash and the
optional Git-derived identity from `ProjectDetector.detectProject`. -/
structure ProjectIdentity where
  name : String
  pathHash : String
  repositoryId : Option String
  gitRemoteUrl : Option String
  techStack : List String
  projectType : String
  deriving DecidableEq, Repr

/-! ## StorageEngine (`src/database.ts`, class `TigerCloudDB`)

Each method is modelled as a pure function of an explicit store (the list of
rows of the relevant table).  The pgvector distance operator `<->` is
Euclidean distance; since `ORDER BY` only uses it as a sort key and squaring
is monotone on nonnegative reals, the model sorts by squared Euclidean
distance, which yields the same ordering without needing square roots. -/

/-- Squared Euclidean distance between two vectors (the monotone sort key for
pgvector's `<->` operator). -/
def l2sq (a b : List ℚ) : ℚ :=
  ((a.zip b).map fun p => (p.1 - p.2) * (p.1 - p.2)).sum

/-- Sort key comparison used by `ORDER BY vector_embedding <-> $1::vector`
(ascending distance).  Rows reaching the sort always have an embedding (the
`WHERE` clause filters out `NULL`s), so `getD` never sees `none` in practice. -/
def distLe (q : List ℚ) (a b : DecisionRow) : Bool :=
  decide (l2sq (a.vector_embedding.getD []) q ≤ l2sq (b.vector_embedding.getD []) q)

/-- The row inserted by `TigerCloudDB.saveDecision` for input `d` at time
`now` with fresh id `id` (the `INSERT ... RETURNING *` row). -/
def mkDecisionRow (d : Decision) (now id : ℕ) : DecisionRow :=
  { id := id
    project_id := d.project_id
    session_id := d.session_id
    decision := d.decision
    reasoning := d.reasoning
    dtype := d.dtype
    alternatives_considered := d.alternatives_considered
    files_affected := d.files_affected
    confidence := d.confidence
    public := d.public
    vector_embedding := d.vector_embedding
    created_at := now }

/-- Model of `TigerCloudDB.saveDecision`: insert one immutable row with
`created_at = NOW()`.  Returns the updated store and the inserted row. -/
def saveDecision (store : List DecisionRow) (d : Decision) (now id : ℕ) :
    List DecisionRow × DecisionRow :=
  (store ++ [mkDecisionRow d now id], mkDecisionRow d now id)

/-- Model of `TigerCloudDB.getProjectDecisions`:
`SELECT * FROM decisions WHERE project_id = $1 ORDER BY created_at DESC LIMIT $2`. -/
def getProjectDecisions (store : List DecisionRow) (projectId : String) (limit : ℕ) :
    List DecisionRow :=
  ((store.filter fun r => decide (r.project_id = projectId)).mergeSort
    (fun a b => decide (b.created_at ≤ a.created_at))).take limit

/-- Model of `TigerCloudDB.searchDecisionsByVector`: with a truthy `projectId`, search
that project's decisions; otherwise (`projectId` omitted or empty, the
JavaScript `if (projectId)` test) search only decisions with `public = true`.
Both branches require `vector_embedding IS NOT NULL`, order by ascending
vector distance and apply `LIMIT`. -/
def searchDecisionsByVector (store : List DecisionRow) (embedding : List ℚ)
    (projectId : Option String) (limit : ℕ) : List DecisionRow :=
  if jsTruthyStr projectId then
    ((store.filter fun r =>
        decide (some r.project_id = projectId) && r.vector_embedding.isSome).mergeSort
      (distLe embedding)).take limit
  else
    ((store.filter fun r => r.public && r.vector_embedding.isSome).mergeSort
      (distLe embedding)).take limit

/-- Model of `TigerCloudDB.getDecisionTimeline`: decisions of one project, optionally
filtered by `created_at >= since` (a `Date | undefined`, always truthy when
present) and by `type = category` (a string: the empty string is falsy and
adds no clause), ordered `created_at ASC`. -/
def getDecisionTimeline (store : List DecisionRow) (projectId : String)
    (since : Option ℕ) (category : Option String) : List DecisionRow :=
  (store.filter fun r =>
      decide (r.project_id = projectId)
      && (match since with
          | none => true
          | some t => decide (t ≤ r.created_at))
      && (match category with
          | none => true
          | some c => if c = "" then true else decide (r.dtype = c))).mergeSort
    (fun a b => decide (a.created_at ≤ b.created_at))

/-- SQL array overlap `&&`: the two arrays share at least one element. -/
def arrayOverlap (a b : List String) : Bool :=
  a.any fun x => b.contains x

/-- Model of `TigerCloudDB.getArchitecturalPatterns`: base clause `usage_count > 0`,
plus `tech_stack && $n` when a nonempty tech stack is given, plus
`$n = ANY(ARRAY['general', $n])` when a truthy project type is given (a clause
that is vacuously true, modelled exactly as written), ordered by
`usage_count DESC, success_rate DESC` with `LIMIT`. -/
def getArchitecturalPatterns (store : List DecisionPattern)
    (techStack : Option (List String)) (projectType : Option String) (limit : ℕ) :
    List DecisionPattern :=
  ((store.filter fun r =>
      decide (0 < r.usage_count)
      && (match techStack with
          | none => true
          | some ts => if ts.length = 0 then true else arrayOverlap r.tech_stack ts)
      && (if jsTruthyStr projectType then
            decide (projectType = some "general" ∨ projectType = projectType)
          else true)).mergeSort
    (fun a b =>
      decide (b.usage_count < a.usage_count
        ∨ (a.usage_count = b.usage_count ∧ b.success_rate ≤ a.success_rate)))).take limit

/-- Model of `TigerCloudDB.getProject`: `SELECT * FROM projects WHERE path_hash = $1`,
first row or `null`. -/
def getProject (store : List Project) (pathHash : String) : Option Project :=
  store.find? fun p => decide (p.path_hash = pathHash)

/-- The `projects` row created for a detected identity (fresh id assigned by
the database). -/
def mkProjectRow (identity : ProjectIdentity) (id : ℕ) : Project :=
  { id := id
    name := identity.name
    path_hash := identity.pathHash
    repository_id := identity.repositoryId
    git_remote_url := identity.gitRemoteUrl
    tech_stack := identity.techStack
    project_type := identity.projectType }

/-- Modelled from the spec: `TigerCloudDB.getOrCreateProject` is invoked by
`ensureProjectContext` in the newer server generation (it is passed the
detected `name`/`pathHash`/`repositoryId`/`gitRemoteUrl`/`techStack`/
`projectType`), but its implementation is absent from this snapshot — neither
variant of `database.ts` defines it; only its caller is present.  Spec §4.3:
"look up by `repository_id` if present, else by `path_hash`; if absent,
insert".  Returns the updated store and the resolved project id. -/
def getOrCreateProject (store : List Project) (identity : ProjectIdentity)
    (freshId : ℕ) : List Project × ℕ :=
  match identity.repositoryId with
  | some rid =>
    match store.find? (fun p => decide (p.repository_id = some rid)) with
    | some p => (store, p.id)
    | none => (store ++ [mkProjectRow identity freshId], freshId)
  | none =>
    match store.find? (fun p => decide (p.path_hash = identity.pathHash)) with
    | some p => (store, p.id)
    | none => (store ++ [mkProjectRow identity freshId], freshId)

/-! ## EmbeddingProvider (`src/intelligence.ts`, class `ArchitecturalIntelligence`) -/

/-- One step of the two rolling hashes of `generateFallbackEmbedding`:
`hash = ((hash << shiftAmount) - hash) + char; hash |= 0`.  The JavaScript
`<<` coerces its result to a signed 32-bit integer; the following subtraction
and addition are exact in double precision at these magnitudes, and `|= 0`
wraps the result back to 32 bits. -/
def hashStep (shiftAmount : ℕ) (hash : Int) (char : ℕ) : Int :=
  toInt32 (toInt32 (hash * 2 ^ shiftAmount) - hash + char)

/-- The final `(hash1, hash2)` accumulators of `generateFallbackEmbedding`
over the character codes of the text (both start at `0`; `hash1` shifts by 5,
`hash2` by 3). -/
def fallbackHashes (codes : List ℕ) : Int × Int :=
  codes.foldl (fun h c => (hashStep 5 h.1 c, hashStep 3 h.2 c)) (0, 0)

/-- Model of `ArchitecturalIntelligence.generateFallbackEmbedding`: a 1536-element
vector, zero-filled, whose first 20 positions are deterministic features of
the text — two hash features, a length feature capped at 1, a word-count
feature (`text.split(' ').length`, i.e. one more than the number of spaces),
a line-count feature (one more than the number of newlines), and fifteen
values derived from `hash1 + hash2 + i`.  JavaScript `%` is `Int.tmod`. -/
def generateFallbackEmbedding (text : String) : List ℚ :=
  let codes := text.data.map Char.toNat
  let h := fallbackHashes codes
  let words : ℕ := codes.countP (fun c => c = 32) + 1
  let lines : ℕ := codes.countP (fun c => c = 10) + 1
  (List.range 1536).map fun (i : ℕ) =>
    if i = 0 then ((h.1.tmod 1000 : ℤ) : ℚ) / 1000
    else if i = 1 then ((h.2.tmod 1000 : ℤ) : ℚ) / 1000
    else if i = 2 then min ((codes.length : ℚ) / 1000) 1
    else if i = 3 then (words : ℚ) / 100
    else if i = 4 then (lines : ℚ) / 10
    else if i < 20 then (((h.1 + h.2 + (i : ℤ)).tmod 2000 : ℤ) - 1000 : ℚ) / 1000
    else 0

/-- Outcome of the external provider call inside `generateEmbedding`,
abstracting `Promise.race([anthropic.messages.create(...), timeout])` followed
by content extraction and `JSON.parse`.  Every constructor except a
successfully parsed array corresponds to a thrown error inside the `try`
block.  JSON numbers are modelled as rationals. -/
inductive ProviderResult where
  /-- The 15-second timeout promise rejected first. -/
  | timeout
  /-- The API call itself rejected. -/
  | apiError (msg : String)
  /-- Outcome where `response.content[0]` is missing or not of type `text`. -/
  | nonTextContent
  /-- Outcome where `JSON.parse(content.text)` threw (payload not valid JSON). -/
  | notJson
  /-- Parsed JSON is not an array (`Array.isArray` false). -/
  | nonArray
  /-- Parsed JSON is an array of numbers. -/
  | array (elems : List ℚ)
  deriving DecidableEq, Repr

/-- Model of `ArchitecturalIntelligence.generateEmbedding`: on a successfully parsed
array of exactly 20 elements, pad it with zeros to 1536 positions; on every
other outcome (timeout, API error, malformed content, non-JSON, non-array,
wrong length — each a thrown error reaching the `catch` block) fall back to
`generateFallbackEmbedding`.  The function is total: no provider failure is
ever propagated to the caller. -/
def generateEmbedding (provider : ProviderResult) (text : String) : List ℚ :=
  match provider with
  | .array elems =>
    if elems.length = 20 then
      (List.range 1536).map fun i => if i < 20 then elems.getD i 0 else 0
    else generateFallbackEmbedding text
  | _ => generateFallbackEmbedding text

/-- The text composed by `generateDecisionEmbedding` before embedding:
`` `${type}: ${decision}\n\nReasoning: ${reasoning}` ``. -/
def decisionEmbeddingText (decision reasoning dtype : String) : String :=
  dtype ++ ": " ++ decision ++ "\n\nReasoning: " ++ reasoning

/-- Dot product as computed by the loop in `calculateSimilarity` (the loop
runs over paired indices; the length-equality guard has already ensured the
vectors pair up exactly). -/
def dotProduct (a b : List ℚ) : ℚ :=
  ((a.zip b).map fun p => p.1 * p.2).sum

/-- Model of `ArchitecturalIntelligence.calculateSimilarity`: throws when the lengths
differ, otherwise returns the cosine similarity
`dot / (sqrt(norm1) * sqrt(norm2))`.  The square root forces the result into
`ℝ`, hence this definition is noncomputable; the accumulators themselves are
exact rationals. -/
noncomputable def calculateSimilarity (a b : List ℚ) : Except String ℝ :=
  if a.length ≠ b.length then
    .error "Embeddings must have the same length"
  else
    .ok ((dotProduct a b : ℝ) /
      (Real.sqrt (dotProduct a a) * Real.sqrt (dotProduct b b)))

/-! ## PatternExtractor ranking (`rankPatternsByRelevance`) -/

/-- One entry of the pattern list produced by `extractPatterns` and consumed
by `rankPatternsByRelevance`. -/
structure PatternEntry where
  pattern : String
  frequency : ℕ
  examples : List String
  deriving DecidableEq, Repr

/-- Number of stored examples containing the (lower-cased) query — the
`pattern.examples.filter(e => e.toLowerCase().includes(queryLower)).length`
count inside `rankPatternsByRelevance`. -/
def exampleMatches (p : PatternEntry) (query : String) : ℕ :=
  p.examples.countP fun e => jsIncludes (jsToLowerCase e) (jsToLowerCase query)

/-- The relevance score assigned by `rankPatternsByRelevance`: 0.5 for a
substring match of the query in the tag name, 0.3 times the fraction of
examples containing the query, 0.2 times `log(frequency + 1)`.  The logarithm
forces the score into `ℝ`. -/
noncomputable def relevanceScore (p : PatternEntry) (query : String) : ℝ :=
  (if jsIncludes (jsToLowerCase p.pattern) (jsToLowerCase query) then (1 : ℝ) / 2 else 0)
  + ((exampleMatches p query : ℝ) / (p.examples.length : ℝ)) * (3 / 10)
  + Real.log ((p.frequency : ℝ) + 1) * (1 / 5)

/-- Model of `ArchitecturalIntelligence.rankPatternsByRelevance`: attach the relevance
score to every entry and sort by descending score. -/
noncomputable def rankPatternsByRelevance (patterns : List PatternEntry)
    (query : String) : List (PatternEntry × ℝ) :=
  (patterns.map fun p => (p, relevanceScore p query)).mergeSort
    fun a b => decide (b.2 ≤ a.2)

/-! ## DecisionService (`ToolHandler.handleRememberDecision`) -/

/-- The loosely-typed `args` object of the `remember_decision` tool: every
field may be absent.  `alternatives_considered` and `files_affected` default
to `[]` on destructuring, so absence and emptiness coincide and they are
plain lists here. -/
structure RememberArgs where
  decision : Option String
  reasoning : Option String
  dtype : Option String
  alternatives_considered : List String
  files_affected : List String
  confidence : Option ℚ
  isPublic : Option Bool
  deriving DecidableEq, Repr

/-- The valid decision types (`validTypes` in `handleRememberDecision`). -/
def validTypes : List String :=
  ["tech_stack", "architecture", "pattern", "tool_choice"]

/-- Error text produced when a required field is missing (JavaScript `!x`
also rejects empty strings), as rendered by the surrounding `catch`. -/
def msgMissingFields : String :=
  "❌ Failed to remember decision: Missing required fields: decision, reasoning, type, confidence, public"

/-- Error text for a confidence outside `[0, 1]`, as rendered by the `catch`. -/
def msgBadConfidence : String :=
  "❌ Failed to remember decision: Confidence must be between 0 and 1"

/-- Error text for a type outside the enumeration, as rendered by the `catch`. -/
def msgBadType : String :=
  "❌ Failed to remember decision: Type must be one of: tech_stack, architecture, pattern, tool_choice"

/-- Success text of `handleRememberDecision` (confidence rendered as
`Math.round(confidence * 100)` percent). -/
def msgRemembered (decision dtype : String) (confidence : ℚ) : String :=
  "✅ Decision remembered successfully!\n\n**Decision**: " ++ decision
  ++ "\n**Type**: " ++ dtype
  ++ "\n**Confidence**: " ++ toString (round (confidence * 100)) ++ "%"
  ++ "\n\nThis decision has been stored and will be available for future context recall."

/-- Model of `ToolHandler.handleRememberDecision`: destructure the arguments, reject on
a missing/empty required field, a confidence outside `[0, 1]` or an unknown
type (each a thrown error reaching the `catch`, which leaves the store
untouched and renders the message); otherwise generate the decision embedding
and persist via `saveDecision`.  JavaScript falsiness of an absent-or-empty
string argument (`!decision`) is encoded as `getD "" = ""`, and the
`=== undefined` tests on `confidence` and `public` as `isNone`; after the
guards the `getD` defaults are never used.  Returns the updated decision
store and the rendered response text. -/
def handleRememberDecision (store : List DecisionRow) (args : RememberArgs)
    (projectId sessionId : String) (provider : ProviderResult) (now id : ℕ) :
    List DecisionRow × String :=
  if args.decision.getD "" = "" ∨ args.reasoning.getD "" = "" ∨ args.dtype.getD "" = ""
      ∨ args.confidence.isNone ∨ args.isPublic.isNone then
    (store, msgMissingFields)
  else if args.confidence.getD 0 < 0 ∨ 1 < args.confidence.getD 0 then
    (store, msgBadConfidence)
  else if args.dtype.getD "" ∉ validTypes then
    (store, msgBadType)
  else
    let dec := args.decision.getD ""
    let rea := args.reasoning.getD ""
    let ty := args.dtype.getD ""
    let conf := args.confidence.getD 0
    let emb := generateEmbedding provider (decisionEmbeddingText dec rea ty)
    let d : Decision :=
      { project_id := projectId
        session_id := sessionId
        decision := dec
        reasoning := rea
        dtype := ty
        alternatives_considered := args.alternatives_considered
        files_affected := args.files_affected
        confidence := conf
        public := args.isPublic.getD false
        vector_embedding := some emb }
    ((saveDecision store d now id).1, msgRemembered dec ty conf)

/-- The validation conditions of claim C4: confidence outside `[0,1]`, type
outside the enumeration, or a required field missing (JavaScript-falsy). -/
def invalidRememberArgs (args : RememberArgs) : Prop :=
  (∃ c, args.confidence = some c ∧ (c < 0 ∨ 1 < c))
  ∨ (∃ t, args.dtype = some t ∧ t ∉ validTypes)
  ∨ args.decision = none ∨ args.decision = some ""
  ∨ args.reasoning = none ∨ args.reasoning = some ""
  ∨ args.dtype = none ∨ args.dtype = some ""
  ∨ args.confidence = none
  ∨ args.isPublic = none

/-! ## Shared helper lemmas -/

/-- Membership is preserved from `mergeSort` back to the underlying list. -/
theorem mem_of_mem_mergeSort {α : Type} {le : α → α → Bool} {a : α} {l : List α}
    (h : a ∈ l.mergeSort le) : a ∈ l :=
  (List.mergeSort_perm l le).mem_iff.mp h

/-- The fallback embedding always has exactly 1536 entries. -/
theorem generateFallbackEmbedding_length (t : String) :
    (generateFallbackEmbedding t).length = 1536 := by
  unfold generateFallbackEmbedding
  rw [List.length_map, List.length_range]

/-! ## C1 — global vector search returns only public decisions -/

/-- C1: For every query vector `q` and limit `k`, the global-scope vector
search (`searchDecisionsByVector` with `projectId` omitted) returns only
decisions whose `public` flag is true and whose `vector_embedding` is
non-null; no private decision is ever in its result, regardless of
similarity rank. -/
theorem searchDecisionsByVector_global_scope_public_only
    (store : List DecisionRow) (q : List ℚ) (k : ℕ) (r : DecisionRow)
    (hr : r ∈ searchDecisionsByVector store q none k) :
    r.public = true ∧ r.vector_embedding ≠ none := by
  have hr2 : r ∈ ((store.filter fun s => s.public && s.vector_embedding.isSome).mergeSort
      (distLe q)).take k := hr
  have h1 := List.mem_of_mem_take hr2
  have h2 := mem_of_mem_mergeSort h1
  rw [List.mem_filter, Bool.and_eq_true] at h2
  refine ⟨h2.2.1, ?_⟩
  exact Option.isSome_iff_ne_none.mp h2.2.2

/-- Concrete store for the C1 witness: a single public row with an embedding. -/
def c1Row : DecisionRow :=
  ⟨1, "p", "s", "chose postgres", "fits the workload", "tech_stack", [], [],
    9 / 10, true, some [1, 0], 0⟩

/-- Witness for C1: on a concrete one-row store the returned row is that row,
and it is public with a non-null embedding. -/
theorem searchDecisionsByVector_global_scope_public_only_witness :
    c1Row.public = true ∧ c1Row.vector_embedding ≠ none :=
  searchDecisionsByVector_global_scope_public_only [c1Row] [1, 0] 5 c1Row
    (by simp [searchDecisionsByVector, jsTruthyStr, c1Row])

/-! ## C10 — pattern discovery silently requires usage_count > 0 -/

/-- C10: `getArchitecturalPatterns` never returns a `decision_patterns` row
with `usage_count ≤ 0`: every query variant carries the unconditional base
clause `usage_count > 0`, so zero-usage patterns are invisible regardless of
tag match. -/
theorem getArchitecturalPatterns_usage_count_positive
    (store : List DecisionPattern) (techStack : Option (List String))
    (projectType : Option String) (k : ℕ) (r : DecisionPattern)
    (hr : r ∈ getArchitecturalPatterns store techStack projectType k) :
    0 < r.usage_count := by
  unfold getArchitecturalPatterns at hr
  have h1 := List.mem_of_mem_take hr
  have h2 := mem_of_mem_mergeSort h1
  rw [List.mem_filter, Bool.and_eq_true, Bool.and_eq_true] at h2
  exact of_decide_eq_true h2.2.1.1

/-- Concrete store for the C10 witness. -/
def c10Row : DecisionPattern := ⟨1, "microservices", "split by domain", ["node"], 5, 4 / 5⟩

/-- Witness for C10: a concrete returned row indeed has positive usage count. -/
theorem getArchitecturalPatterns_usage_count_positive_witness :
    0 < c10Row.usage_count :=
  getArchitecturalPatterns_usage_count_positive [c10Row] none none 10 c10Row
    (by simp [getArchitecturalPatterns, jsTruthyStr, c10Row])

/-! ## C8 — timeline filtering and ascending order -/

/-- C8: `getDecisionTimeline P (some T) C` returns exactly (as a multiset) the
decisions of project `P` with `created_at ≥ T` (and `type = C` when a truthy
category is given), in non-decreasing `created_at` order — the opposite of
`getProjectDecisions`, whose result is in non-increasing `created_at` order. -/
theorem getDecisionTimeline_since_filter_ascending
    (store : List DecisionRow) (P : String) (T : ℕ) (C : Option String) (k : ℕ) :
    (getDecisionTimeline store P (some T) C).Perm
      (store.filter fun r =>
        decide (r.project_id = P) && decide (T ≤ r.created_at)
          && (match C with
              | none => true
              | some c => if c = "" then true else decide (r.dtype = c)))
    ∧ List.Pairwise (fun a b => a.created_at ≤ b.created_at)
        (getDecisionTimeline store P (some T) C)
    ∧ List.Pairwise (fun a b => b.created_at ≤ a.created_at)
        (getProjectDecisions store P k) := by
  refine ⟨List.mergeSort_perm _ _, ?_, ?_⟩
  · have hs := @List.sorted_mergeSort DecisionRow
      (fun a b => decide (a.created_at ≤ b.created_at))
      (fun a b c hab hbc => by
        simp only [decide_eq_true_eq] at hab hbc ⊢
        omega)
      (fun a b => by
        simp only [Bool.or_eq_true, decide_eq_true_eq]
        omega)
      (store.filter fun r =>
        decide (r.project_id = P) && decide (T ≤ r.created_at)
          && (match C with
              | none => true
              | some c => if c = "" then true else decide (r.dtype = c)))
    exact hs.imp fun h => of_decide_eq_true h
  · have hs := @List.sorted_mergeSort DecisionRow
      (fun a b => decide (b.created_at ≤ a.created_at))
      (fun a b c hab hbc => by
        simp only [decide_eq_true_eq] at hab hbc ⊢
        omega)
      (fun a b => by
        simp only [Bool.or_eq_true, decide_eq_true_eq]
        omega)
      (store.filter fun r => decide (r.project_id = P))
    exact List.Pairwise.sublist (List.take_sublist _ _)
      (hs.imp fun h => of_decide_eq_true h)

/-! ## C2 — project identity is stable across clones of the same remote -/

/-- C2: two `getOrCreateProject` resolutions with the same normalized Git
remote (`repositoryId`) but different local clone paths (different
`pathHash`es) return the same project id: identity is keyed on
`repository_id` when present.  (`getOrCreateProject` is modelled from the
spec, its implementation being absent from the snapshot; see its doc.) -/
theorem getOrCreateProject_git_identity_stable
    (store : List Project) (i1 i2 : ProjectIdentity) (f1 f2 : ℕ) (rid : String)
    (h1 : i1.repositoryId = some rid) (h2 : i2.repositoryId = some rid)
    (hpath : i1.pathHash ≠ i2.pathHash) :
    (getOrCreateProject (getOrCreateProject store i1 f1).1 i2 f2).2
      = (getOrCreateProject store i1 f1).2 := by
  simp only [getOrCreateProject, h1, h2]
  cases hfind : store.find? (fun p => decide (p.repository_id = some rid)) with
  | some p => simp [hfind]
  | none =>
    have hnew : (store ++ [mkProjectRow i1 f1]).find?
        (fun p => decide (p.repository_id = some rid)) = some (mkProjectRow i1 f1) := by
      rw [List.find?_append, hfind]
      simp [mkProjectRow, h1]
    simp [hfind, hnew, mkProjectRow, h1]

/-- First clone identity for the C2 witness. -/
def c2Clone1 : ProjectIdentity :=
  ⟨"memory", "aaaa000011112222", some "github.com/akulkarni/memory",
    some "git@github.com:akulkarni/memory.git", ["typescript"], "backend"⟩

/-- Second clone identity for the C2 witness: same remote, different path hash. -/
def c2Clone2 : ProjectIdentity :=
  ⟨"memory", "bbbb000011112222", some "github.com/akulkarni/memory",
    some "https://github.com/akulkarni/memory.git", ["typescript"], "backend"⟩

/-- Witness for C2: starting from an empty projects table, both clones resolve
to the same project id. -/
theorem getOrCreateProject_git_identity_stable_witness :
    (getOrCreateProject (getOrCreateProject [] c2Clone1 0).1 c2Clone2 1).2
      = (getOrCreateProject [] c2Clone1 0).2 :=
  getOrCreateProject_git_identity_stable [] c2Clone1 c2Clone2 0 1
    "github.com/akulkarni/memory" rfl rfl (by decide)

/-! ## C3 — save / listRecent round-trip -/

/-- Descending `created_at` sort puts a strictly newest element first: if
`row ∈ L` and every other element of `L` is strictly older, the first element
of the sorted list is `row`. -/
theorem take_one_mergeSort_newest (L : List DecisionRow) (row : DecisionRow)
    (hrowL : row ∈ L)
    (hbound : ∀ x ∈ L, x = row ∨ x.created_at < row.created_at) :
    ((L.mergeSort fun a b => decide (b.created_at ≤ a.created_at)).take 1) = [row] := by
  have hperm : (L.mergeSort fun a b => decide (b.created_at ≤ a.created_at)).Perm L :=
    List.mergeSort_perm _ _
  have hsorted : List.Pairwise
      (fun a b => (decide (b.created_at ≤ a.created_at)) = true)
      (L.mergeSort fun a b => decide (b.created_at ≤ a.created_at)) :=
    List.sorted_mergeSort
      (fun a b c hab hbc => by
        simp only [decide_eq_true_eq] at hab hbc ⊢
        omega)
      (fun a b => by
        simp only [Bool.or_eq_true, decide_eq_true_eq]
        omega)
      L
  have hrowS : row ∈ (L.mergeSort fun a b => decide (b.created_at ≤ a.created_at)) :=
    hperm.mem_iff.mpr hrowL
  obtain ⟨h, t, hcons⟩ :
      ∃ h t, (L.mergeSort fun a b => decide (b.created_at ≤ a.created_at)) = h :: t := by
    cases hSc : (L.mergeSort fun a b => decide (b.created_at ≤ a.created_at)) with
    | nil => rw [hSc] at hrowS; cases hrowS
    | cons a l => exact ⟨a, l, rfl⟩
  have hhead : h = row := by
    by_contra hne
    have hrt : row ∈ t := by
      rw [hcons] at hrowS
      rcases List.mem_cons.mp hrowS with h1 | h1
      · exact absurd h1.symm hne
      · exact h1
    have hle : row.created_at ≤ h.created_at := by
      rw [hcons] at hsorted
      exact of_decide_eq_true ((List.pairwise_cons.mp hsorted).1 row hrt)
    have hhL : h ∈ L := hperm.mem_iff.mp (by rw [hcons]; exact List.mem_cons_self _ _)
    rcases hbound h hhL with h1 | h1
    · exact hne h1
    · omega
  rw [hcons, hhead]
  rfl

/-- C3: for every valid decision `d` (confidence in `[0,1]`, type in the fixed
enumeration), `saveDecision d` followed by `getProjectDecisions` of that
project with limit 1 returns a row whose `decision`, `reasoning`, type,
`confidence`, `alternatives_considered` and `files_affected` equal those of
`d` — the write/read round-trip.  The freshness hypothesis says the insert
timestamp `NOW()` is strictly later than every existing row of the project. -/
theorem saveDecision_roundtrip
    (store : List DecisionRow) (d : Decision) (now id : ℕ)
    (hconf : 0 ≤ d.confidence ∧ d.confidence ≤ 1)
    (htype : d.dtype ∈ validTypes)
    (hfresh : ∀ r ∈ store, r.project_id = d.project_id → r.created_at < now) :
    (getProjectDecisions (saveDecision store d now id).1 d.project_id 1).map
        (fun r => (r.decision, r.reasoning, r.dtype, r.confidence,
          r.alternatives_considered, r.files_affected))
      = [(d.decision, d.reasoning, d.dtype, d.confidence,
          d.alternatives_considered, d.files_affected)] := by
  have hrowL : mkDecisionRow d now id ∈
      ((store ++ [mkDecisionRow d now id]).filter
        fun r => decide (r.project_id = d.project_id)) := by
    rw [List.filter_append]
    refine List.mem_append.mpr (Or.inr ?_)
    simp [mkDecisionRow]
  have hbound : ∀ x ∈ ((store ++ [mkDecisionRow d now id]).filter
      fun r => decide (r.project_id = d.project_id)),
      x = mkDecisionRow d now id ∨ x.created_at < (mkDecisionRow d now id).created_at := by
    intro x hx
    rw [List.filter_append] at hx
    rcases List.mem_append.mp hx with hx1 | hx2
    · right
      have hmem := List.mem_filter.mp hx1
      exact hfresh x hmem.1 (of_decide_eq_true hmem.2)
    · left
      have hmem := List.mem_filter.mp hx2
      simpa using hmem.1
  have hkey : getProjectDecisions (saveDecision store d now id).1 d.project_id 1
      = [mkDecisionRow d now id] := by
    unfold getProjectDecisions saveDecision
    exact take_one_mergeSort_newest _ _ hrowL hbound
  rw [hkey]
  simp [mkDecisionRow]

/-- Concrete valid decision for the C3 witness. -/
def c3Decision : Decision :=
  ⟨"proj", "sess", "use postgres", "relational model fits", "tech_stack",
    ["mysql"], ["db.ts"], 9 / 10, true, some [1]⟩

/-- Witness for C3: round-trip on an empty store with a concrete decision. -/
theorem saveDecision_roundtrip_witness :
    (getProjectDecisions (saveDecision [] c3Decision 1 0).1 c3Decision.project_id 1).map
        (fun r => (r.decision, r.reasoning, r.dtype, r.confidence,
          r.alternatives_considered, r.files_affected))
      = [(c3Decision.decision, c3Decision.reasoning, c3Decision.dtype,
          c3Decision.confidence, c3Decision.alternatives_considered,
          c3Decision.files_affected)] :=
  saveDecision_roundtrip [] c3Decision 1 0
    ⟨by norm_num [c3Decision], by norm_num [c3Decision]⟩
    (by simp [c3Decision, validTypes]) (by simp)

/-! ## C4 — remember_decision validation happens before any write -/

/-- C4: every `remember_decision` request whose confidence is outside `[0,1]`,
whose type is outside the fixed enumeration, or which is missing a required
field is rejected by `handleRememberDecision` with one of the three specific
validation messages, and the decision store is unchanged — validation happens
before the embedding call and before `saveDecision`. -/
theorem handleRememberDecision_rejects_invalid
    (store : List DecisionRow) (args : RememberArgs) (pid sid : String)
    (provider : ProviderResult) (now id : ℕ)
    (hbad : invalidRememberArgs args) :
    (handleRememberDecision store args pid sid provider now id).1 = store
    ∧ (handleRememberDecision store args pid sid provider now id).2
        ∈ [msgMissingFields, msgBadConfidence, msgBadType] := by
  unfold handleRememberDecision
  by_cases hm : args.decision.getD "" = "" ∨ args.reasoning.getD "" = ""
      ∨ args.dtype.getD "" = "" ∨ args.confidence.isNone = true
      ∨ args.isPublic.isNone = true
  · rw [if_pos hm]
    exact ⟨rfl, by simp⟩
  · rw [if_neg hm]
    by_cases hc : args.confidence.getD 0 < 0 ∨ 1 < args.confidence.getD 0
    · rw [if_pos hc]
      exact ⟨rfl, by simp⟩
    · rw [if_neg hc]
      by_cases ht : args.dtype.getD "" ∉ validTypes
      · rw [if_pos ht]
        exact ⟨rfl, by simp⟩
      · exfalso
        push_neg at hm
        obtain ⟨hdec, hrea, hty, hcs, hps⟩ := hm
        rcases hbad with ⟨c, hcc, hout⟩ | ⟨ty2, hty2, hnotin⟩ | h | h | h | h | h | h | h | h
        · rw [hcc] at hc
          simp only [Option.getD_some] at hc
          exact hc hout
        · rw [hty2] at ht
          simp only [Option.getD_some] at ht
          exact ht hnotin
        · rw [h] at hdec; simp at hdec
        · rw [h] at hdec; simp at hdec
        · rw [h] at hrea; simp at hrea
        · rw [h] at hrea; simp at hrea
        · rw [h] at hty; simp at hty
        · rw [h] at hty; simp at hty
        · rw [h] at hcs; simp at hcs
        · rw [h] at hps; simp at hps

/-- Concrete invalid request for the C4 witness: confidence `1.5`. -/
def c4Args : RememberArgs :=
  ⟨some "use postgres", some "fits", some "tech_stack", [], [], some (3 / 2), some true⟩

/-- Witness for C4: the over-confident request leaves the store unchanged and
yields a validation message. -/
theorem handleRememberDecision_rejects_invalid_witness :
    (handleRememberDecision [] c4Args "p" "s" ProviderResult.timeout 0 0).1 = []
    ∧ (handleRememberDecision [] c4Args "p" "s" ProviderResult.timeout 0 0).2
        ∈ [msgMissingFields, msgBadConfidence, msgBadType] :=
  handleRememberDecision_rejects_invalid [] c4Args "p" "s" ProviderResult.timeout 0 0
    (Or.inl ⟨3 / 2, rfl, Or.inr (by norm_num)⟩)

/-! ## C5 — embedding generation never propagates provider failures -/

/-- C5: `generateEmbedding` returns a 1536-element vector for every provider
outcome; on every failure outcome (timeout, API error, malformed content,
non-JSON payload, non-array payload, or array of length ≠ 20) the result is
exactly the deterministic fallback embedding, and no provider error is ever
propagated (the function is total). -/
theorem generateEmbedding_total_with_fallback (p : ProviderResult) (t : String) :
    (generateEmbedding p t).length = 1536
    ∧ ((∀ e, p ≠ ProviderResult.array e) →
        generateEmbedding p t = generateFallbackEmbedding t)
    ∧ (∀ e, p = ProviderResult.array e → e.length ≠ 20 →
        generateEmbedding p t = generateFallbackEmbedding t) := by
  refine ⟨?_, ?_, ?_⟩
  · cases p with
    | array elems =>
      by_cases h : elems.length = 20
      · simp [generateEmbedding, h]
      · simpa [generateEmbedding, h] using generateFallbackEmbedding_length t
    | timeout => exact generateFallbackEmbedding_length t
    | apiError msg => exact generateFallbackEmbedding_length t
    | nonTextContent => exact generateFallbackEmbedding_length t
    | notJson => exact generateFallbackEmbedding_length t
    | nonArray => exact generateFallbackEmbedding_length t
  · intro hne
    cases p with
    | array elems => exact absurd rfl (hne elems)
    | timeout => rfl
    | apiError msg => rfl
    | nonTextContent => rfl
    | notJson => rfl
    | nonArray => rfl
  · intro e hpe hlen
    subst hpe
    simp [generateEmbedding, hlen]

/-- Witness for C5: the timeout outcome yields a 1536-element vector equal to
the fallback embedding. -/
theorem generateEmbedding_total_with_fallback_witness :
    (generateEmbedding ProviderResult.timeout "hello").length = 1536
    ∧ generateEmbedding ProviderResult.timeout "hello"
        = generateFallbackEmbedding "hello" :=
  ⟨(generateEmbedding_total_with_fallback ProviderResult.timeout "hello").1,
   (generateEmbedding_total_with_fallback ProviderResult.timeout "hello").2.1
     (fun e h => ProviderResult.noConfusion h)⟩

/-! ## C6 — the fallback embedding is pure, 1536-long, zero beyond index 20 -/

/-- C6: the fallback embedding is a pure function of the text (identical
inputs yield identical vectors), always has exactly 1536 elements, and every
position at index 20 and beyond is zero — only the first 20 positions carry
features derived from the rolling hashes, length, word count and line count. -/
theorem generateFallbackEmbedding_pure_shape (t : String) :
    (∀ s : String, s = t → generateFallbackEmbedding s = generateFallbackEmbedding t)
    ∧ (generateFallbackEmbedding t).length = 1536
    ∧ ∀ i : ℕ, 20 ≤ i → i < 1536 → (generateFallbackEmbedding t).getD i 1 = 0 := by
  refine ⟨fun s hs => by rw [hs], generateFallbackEmbedding_length t, ?_⟩
  intro i h20 h1536
  have hElem : (generateFallbackEmbedding t)[i]? = some 0 := by
    simp only [generateFallbackEmbedding]
    rw [List.getElem?_map, List.getElem?_range h1536]
    simp [show i ≠ 0 by omega, show i ≠ 1 by omega, show i ≠ 2 by omega,
      show i ≠ 3 by omega, show i ≠ 4 by omega, show ¬ i < 20 by omega]
  rw [List.getD_eq_getElem?_getD, hElem]
  rfl

/-- Witness for C6: concrete text, concrete zero position. -/
theorem generateFallbackEmbedding_pure_shape_witness :
    (generateFallbackEmbedding "tiger").length = 1536
    ∧ (generateFallbackEmbedding "tiger").getD 25 1 = 0 :=
  ⟨(generateFallbackEmbedding_pure_shape "tiger").2.1,
   (generateFallbackEmbedding_pure_shape "tiger").2.2 25 (by omega) (by omega)⟩

/-! ## C7 — cosine self-similarity is 1; unequal lengths fail -/

/-- The self dot product of a vector is nonnegative (a sum of squares). -/
theorem dotProduct_self_nonneg (v : List ℚ) : 0 ≤ dotProduct v v := by
  induction v with
  | nil => simp [dotProduct]
  | cons a t ih =>
    have hd : dotProduct (a :: t) (a :: t) = a * a + dotProduct t t := by
      simp [dotProduct]
    have ha := mul_self_nonneg a
    rw [hd]
    linarith

/-- The self dot product of a vector with a nonzero entry is positive. -/
theorem dotProduct_self_pos (v : List ℚ) (hv : ∃ x ∈ v, x ≠ 0) :
    0 < dotProduct v v := by
  induction v with
  | nil =>
    obtain ⟨x, hx, -⟩ := hv
    cases hx
  | cons a t ih =>
    have hd : dotProduct (a :: t) (a :: t) = a * a + dotProduct t t := by
      simp [dotProduct]
    obtain ⟨x, hx, hx0⟩ := hv
    rw [hd]
    rcases List.mem_cons.mp hx with rfl | hxt
    · have h1 : 0 < x * x := mul_self_pos.mpr hx0
      have h2 := dotProduct_self_nonneg t
      linarith
    · have h1 : 0 < dotProduct t t := ih ⟨x, hxt, hx0⟩
      have h2 := mul_self_nonneg a
      linarith

/-- C7: `calculateSimilarity v v = 1` for every vector `v` with a nonzero
entry (cosine self-similarity is maximal), and `calculateSimilarity a b`
throws (`Embeddings must have the same length`) whenever the vectors have
different lengths, rather than returning a value. -/
theorem calculateSimilarity_self_one_and_length_guard :
    (∀ v : List ℚ, (∃ x ∈ v, x ≠ 0) → calculateSimilarity v v = Except.ok 1)
    ∧ ∀ a b : List ℚ, a.length ≠ b.length →
        calculateSimilarity a b = Except.error "Embeddings must have the same length" := by
  constructor
  · intro v hv
    have hpos := dotProduct_self_pos v hv
    have h0 : (0 : ℝ) ≤ (dotProduct v v : ℝ) := by exact_mod_cast hpos.le
    have hne : ((dotProduct v v : ℚ) : ℝ) ≠ 0 := by exact_mod_cast hpos.ne'
    unfold calculateSimilarity
    rw [if_neg (by simp)]
    congr 1
    rw [Real.mul_self_sqrt h0]
    exact div_self hne
  · intro a b h
    unfold calculateSimilarity
    rw [if_pos h]

/-- Witness for C7: a concrete nonzero vector has self-similarity 1, and a
concrete length mismatch throws. -/
theorem calculateSimilarity_self_one_and_length_guard_witness :
    calculateSimilarity [1] [1] = Except.ok 1
    ∧ calculateSimilarity [1] [] = Except.error "Embeddings must have the same length" :=
  ⟨calculateSimilarity_self_one_and_length_guard.1 [1] ⟨1, by simp, one_ne_zero⟩,
   calculateSimilarity_self_one_and_length_guard.2 [1] [] (by simp)⟩

/-! ## C9 — pattern ranking is monotone in matching evidence -/

/-- C9: the relevance score computed by `rankPatternsByRelevance` is monotone
in evidence: between two entries with the same tag name and the same number of
stored examples, the one with at least as many query-matching examples and at
least as high a frequency never receives a lower relevance score (hence never
ranks below the other in the descending sort). -/
theorem rankPatternsByRelevance_monotone
    (p1 p2 : PatternEntry) (query : String)
    (hname : p1.pattern = p2.pattern)
    (hlen : p1.examples.length = p2.examples.length)
    (hpos : 0 < p1.examples.length)
    (hmatch : exampleMatches p2 query ≤ exampleMatches p1 query)
    (hfreq : p2.frequency ≤ p1.frequency) :
    relevanceScore p2 query ≤ relevanceScore p1 query := by
  unfold relevanceScore
  have hind : (if jsIncludes (jsToLowerCase p2.pattern) (jsToLowerCase query) then (1 : ℝ) / 2 else 0)
      = (if jsIncludes (jsToLowerCase p1.pattern) (jsToLowerCase query) then (1 : ℝ) / 2 else 0) := by
    rw [hname]
  have hlenpos : (0 : ℝ) < (p1.examples.length : ℝ) := by exact_mod_cast hpos
  have hex : ((exampleMatches p2 query : ℝ) / (p2.examples.length : ℝ)) * (3 / 10)
      ≤ ((exampleMatches p1 query : ℝ) / (p1.examples.length : ℝ)) * (3 / 10) := by
    rw [← hlen]
    have hdiv : (exampleMatches p2 query : ℝ) / (p1.examples.length : ℝ)
        ≤ (exampleMatches p1 query : ℝ) / (p1.examples.length : ℝ) := by
      apply div_le_div_of_nonneg_right ?_ hlenpos.le
      exact_mod_cast hmatch
    linarith
  have hlog : Real.log ((p2.frequency : ℝ) + 1) * (1 / 5)
      ≤ Real.log ((p1.frequency : ℝ) + 1) * (1 / 5) := by
    have hmono : Real.log ((p2.frequency : ℝ) + 1) ≤ Real.log ((p1.frequency : ℝ) + 1) := by
      apply Real.log_le_log (by positivity)
      have : (p2.frequency : ℝ) ≤ (p1.frequency : ℝ) := by exact_mod_cast hfreq
      linarith
    linarith
  linarith [hind, hex, hlog]

/-- First entry for the C9 witness: more matching evidence. -/
def c9Rich : PatternEntry := ⟨"sql-database", 3, ["we chose postgres"]⟩

/-- Second entry for the C9 witness: same tag, same example count, less
matching evidence and lower frequency. -/
def c9Poor : PatternEntry := ⟨"sql-database", 2, ["we chose redis"]⟩

/-- Witness for C9: on concrete entries the poorer one scores no higher. -/
theorem rankPatternsByRelevance_monotone_witness :
    relevanceScore c9Poor "postgres" ≤ relevanceScore c9Rich "postgres" :=
  rankPatternsByRelevance_monotone c9Rich c9Poor "postgres" rfl rfl
    (by decide) (by decide) (by decide)
